import Mathlib

/-!
# fiber-ws-relay: configuration resolution, origin check, connection pool, bridge

A shallow embedding of `v3/relay.go` (and of the handler of the root `relay.go`).

Conventions of the embedding:
* a Go string is a Lean `String`; string comparison `==` is equality of the two values,
  with no case folding or normalisation;
* a Go slice is `Option (List α)`: `none` is the nil slice, `some []` an empty non-nil one;
* a Go map is `Option (List (String × V))`: `none` is the nil map (the zero value of the
  field), `some []` is what `make(map[..]..)` returns; keys are kept unique by `GoMap.set`;
* Go `int` and `time.Duration` are `Int` (no arithmetic is performed on them);
* a nil function, interface or pointer is `none`.
-/

namespace Relay

/-! ## Go slices and maps -/

/-- Length of a Go slice, `len(s)`: a nil slice has length 0. -/
def sliceLen {α : Type} (s : Option (List α)) : Nat :=
  match s with
  | none => 0
  | some xs => xs.length

/-- Elements of a Go slice in order (none for the nil slice). -/
def sliceElems {α : Type} (s : Option (List α)) : List α :=
  match s with
  | none => []
  | some xs => xs

/-- Indexing `s[i]` of a Go slice: `none` is the run-time panic "index out of range". -/
def sliceIndex {α : Type} (s : Option (List α)) (i : Nat) : Option α :=
  (sliceElems s)[i]?

/-- A Go `map[string]V`; `none` is the nil map. -/
abbrev GoMap (V : Type) := Option (List (String × V))

/-- The entries of a map (a nil map has none). -/
def GoMap.entries {V : Type} (m : GoMap V) : List (String × V) :=
  match m with
  | none => []
  | some es => es

/-- The two-valued read `v, ok := m[key]`, as `some v` when `ok` and `none` otherwise.
Reading a nil map is allowed and finds nothing. -/
def GoMap.get {V : Type} (m : GoMap V) (key : String) : Option V :=
  m.entries.lookup key

/-- The assignment `m[key] = v`; `none` is the panic of assigning into a nil map. -/
def GoMap.set {V : Type} (m : GoMap V) (key : String) (v : V) : Option (GoMap V) :=
  match m with
  | none => none
  | some es => some (some ((key, v) :: es.filter (fun e => e.1 != key)))

/-- The error values a handler returns (a nil error is `none : Option Error`). -/
inductive Error
  | internalServerError
  | upgradeRequired
  | other (code : Nat)
  deriving DecidableEq, Repr

/-- A value of type `interface{}` stored under a locals key; `conn` is the pointer to the
context of the session itself, which the handler stores under "websocket". -/
inductive Any
  | str (s : String)
  | int (n : Int)
  | ref (addr : Nat)
  | conn
  deriving DecidableEq, Repr

/-- What a handler is seen to do, in order. -/
inductive Event
  | next
  | acquire
  | upgrade
  | dial
  | bridge
  | closeBackend
  | release
  deriving DecidableEq, Repr

/-- How a run of a handler ends: it returns an error value (nil is `none`), or it panics. -/
inductive Outcome
  | returned (err : Option Error)
  | panicked
  deriving DecidableEq, Repr

namespace V3

/-! ## The request -/

/-- What the relay reads from a request (`fiber.Ctx` and its `fasthttp.RequestCtx`):
the user values, the names of the route parameters and the value `c.Params` gives for a
name, the query arguments, the cookies and the headers, in iteration order. -/
structure Ctx where
  userValues : List (String × Any)
  routeParams : List String
  Params : String → String
  queryArgs : List (String × String)
  cookies : List (String × String)
  headers : List (String × String)

/-- Value of `Request.Header.Peek(key)`: the bytes of the first header of that name, or nil. -/
def Ctx.Peek (fctx : Ctx) (key : String) : Option String :=
  fctx.headers.lookup key

/-- The conversion `utils.UnsafeString` of a byte slice: nil gives the empty string. -/
def UnsafeString (b : Option String) : String :=
  match b with
  | none => ""
  | some s => s

/-! ## Configuration -/

/-- The configuration of the relay (`Config`). -/
structure Config where
  Filter : Option (Ctx → Bool)
  HandshakeTimeout : Int
  Subprotocols : Option (List String)
  Origins : Option (List String)
  ReadBufferSize : Int
  WriteBufferSize : Int
  WriteBufferPool : Option Nat
  EnableCompression : Bool

/-- The zero value `var cfg Config`. -/
def Config.zero : Config :=
  { Filter := none, HandshakeTimeout := 0, Subprotocols := none, Origins := none,
    ReadBufferSize := 0, WriteBufferSize := 0, WriteBufferPool := none,
    EnableCompression := false }

/-- The function `configDefault(config ...Config)`: the first argument, when there is one,
with an empty origin list replaced by the wildcard and zero buffer sizes by 1024. -/
def configDefault (config : List Config) : Config :=
  let cfg := match config with
    | [] => Config.zero
    | c :: _ => c
  let cfg := if sliceLen cfg.Origins = 0 then { cfg with Origins := some ["*"] } else cfg
  let cfg := if cfg.ReadBufferSize = 0 then { cfg with ReadBufferSize := 1024 } else cfg
  let cfg := if cfg.WriteBufferSize = 0 then { cfg with WriteBufferSize := 1024 } else cfg
  cfg

/-! ## Origin check -/

/-- The loop `for i := range cfg.Origins` of `CheckOrigin`: true at the first entry equal
to the origin, false when the entries are exhausted. -/
def originLoop (origins : List String) (origin : String) : Bool :=
  match origins with
  | [] => false
  | o :: rest => if o = origin then true else originLoop rest origin

/-- The closure `CheckOrigin` built in `New`, over the configuration `cfg` it captures.
`none` is the index panic of `cfg.Origins[0]` on an empty list. -/
def CheckOrigin (cfg : Config) (fctx : Ctx) : Option Bool :=
  match sliceIndex cfg.Origins 0 with
  | none => none
  | some first =>
    if first = "*" then some true
    else
      let origin := UnsafeString (fctx.Peek "Origin")
      some (originLoop (sliceElems cfg.Origins) origin)

/-- A request that carries only the given headers. -/
def Ctx.ofHeaders (hs : List (String × String)) : Ctx :=
  { userValues := [], routeParams := [], Params := fun _ => "", queryArgs := [],
    cookies := [], headers := hs }

/-- A configuration that sets only the origin list. -/
def Config.ofOrigins (os : List String) : Config :=
  { Config.zero with Origins := some os }

/-! ## The connection context and its pool -/

set_option linter.dupNamespace false in
/-- The context of one session (`Conn`): the embedded `*websocket.Conn` (field `Conn`, nil
until the upgrade) and the maps copied from the request. -/
structure Conn where
  Conn : Option Nat
  locals : GoMap Any
  params : GoMap String
  cookies : GoMap String
  headers : GoMap String
  queries : GoMap String
  deriving DecidableEq, Repr

/-- The value `new(Conn)`: every field has its zero value. -/
def Conn.new : V3.Conn :=
  { Conn := none, locals := none, params := none, cookies := none, headers := none,
    queries := none }

/-- An item of the `sync.Pool`, which stores `interface{}`: a `*Conn`, or a value of
another type (none is ever put there by this package). -/
inductive PoolItem
  | conn (c : Conn)
  | foreign (tag : Nat)
  deriving DecidableEq, Repr

/-- The items that `poolConn` currently holds. -/
abbrev Pool := List PoolItem

/-- The field `New` of `poolConn`. -/
def poolConnNew : PoolItem :=
  PoolItem.conn Conn.new

/-- The call `poolConn.Get()`. The pool may hand out any item it holds, or ignore what it
holds and call `New`; `pick` is that choice (`some i` takes item `i` when there is one). -/
def Pool.Get (pool : Pool) (pick : Option Nat) : PoolItem × Pool :=
  match pick with
  | none => (poolConnNew, pool)
  | some i =>
    match pool[i]? with
    | some item => (item, pool.eraseIdx i)
    | none => (poolConnNew, pool)

/-- The call `poolConn.Put(x)`. -/
def Pool.Put (pool : Pool) (x : PoolItem) : Pool :=
  x :: pool

/-- The function `acquireConn`: the context and `true` (here `some conn`), or `nil, false`
(here `none`) when the item of the pool is not a `*Conn`; with the pool that remains. -/
def acquireConn (pool : Pool) (pick : Option Nat) : Option Conn × Pool :=
  match pool.Get pick with
  | (PoolItem.conn conn, pool) =>
    let conn := { conn with locals := some [] }
    let conn := { conn with params := some [] }
    let conn := { conn with queries := some [] }
    let conn := { conn with cookies := some [] }
    let conn := { conn with headers := some [] }
    (some conn, pool)
  | (PoolItem.foreign _, pool) => (none, pool)

/-- The function `releaseConn`: clear the connection handle, then put the context back. -/
def releaseConn (pool : Pool) (conn : Conn) : Pool :=
  let conn := { conn with Conn := none }
  pool.Put (PoolItem.conn conn)

/-- The assignment `conn.locals[key] = value` (none: assignment into a nil map). -/
def Conn.setLocal (conn : V3.Conn) (key : String) (value : Any) : Option V3.Conn :=
  (conn.locals.set key value).map (fun m => { conn with locals := m })

/-- The assignment `conn.params[key] = value`. -/
def Conn.setParam (conn : V3.Conn) (key value : String) : Option V3.Conn :=
  (conn.params.set key value).map (fun m => { conn with params := m })

/-- The assignment `conn.queries[key] = value`. -/
def Conn.setQuery (conn : V3.Conn) (key value : String) : Option V3.Conn :=
  (conn.queries.set key value).map (fun m => { conn with queries := m })

/-- The assignment `conn.cookies[key] = value`. -/
def Conn.setCookie (conn : V3.Conn) (key value : String) : Option V3.Conn :=
  (conn.cookies.set key value).map (fun m => { conn with cookies := m })

/-- The assignment `conn.headers[key] = value`. -/
def Conn.setHeader (conn : V3.Conn) (key value : String) : Option V3.Conn :=
  (conn.headers.set key value).map (fun m => { conn with headers := m })

/-! ## Accessors of the context -/

/-- The read `v, ok := m[key]` of a string map: the stored value and true, or the zero
value `""` and false. -/
def commaOk (m : GoMap String) (key : String) : String × Bool :=
  match m.get key with
  | some v => (v, true)
  | none => ("", false)

/-- The method `Locals`: the stored value, or nil. -/
def Conn.Locals (conn : V3.Conn) (key : String) : Option Any :=
  conn.locals.get key

/-- The method `Params`. -/
def Conn.Params (conn : V3.Conn) (key : String) (defaultValue : List String) : String :=
  let (v, ok) := commaOk conn.params key
  if !ok && decide (defaultValue.length > 0) then defaultValue.headD "" else v

/-- The method `Query`. -/
def Conn.Query (conn : V3.Conn) (key : String) (defaultValue : List String) : String :=
  let (v, ok) := commaOk conn.queries key
  if !ok && decide (defaultValue.length > 0) then defaultValue.headD "" else v

/-- The method `Cookies`. -/
def Conn.Cookies (conn : V3.Conn) (key : String) (defaultValue : List String) : String :=
  let (v, ok) := commaOk conn.cookies key
  if !ok && decide (defaultValue.length > 0) then defaultValue.headD "" else v

/-- The method `Headers`. -/
def Conn.Headers (conn : V3.Conn) (key : String) (defaultValue : List String) : String :=
  let (v, ok) := commaOk conn.headers key
  if !ok && decide (defaultValue.length > 0) then defaultValue.headD "" else v

/-! ## Sessions over the pool

The pool is the only state shared by sessions. A session owns its context from
`acquireConn` until `releaseConn`: the handler writes the maps right after the acquire, the
upgrade callback sets the handle and defers the release, and nothing touches the context
after the release. The state below holds the pool and the contexts owned by the live
sessions; a slot is emptied when its context is released. -/

/-- The pool and the contexts currently owned by sessions. -/
structure PoolState where
  pool : Pool
  live : List (Option Conn)
  deriving DecidableEq, Repr

/-- The state at program start: nothing pooled, no session. -/
def PoolState.init : PoolState :=
  { pool := [], live := [] }

/-- One operation of a session on the pool or on the context it owns. -/
inductive Op
  | acquire (pick : Option Nat)
  | setLocal (slot : Nat) (key : String) (value : Any)
  | setParam (slot : Nat) (key value : String)
  | setQuery (slot : Nat) (key value : String)
  | setCookie (slot : Nat) (key value : String)
  | setHeader (slot : Nat) (key value : String)
  | setHandle (slot : Nat) (fconn : Nat)
  | release (slot : Nat)
  | evict (i : Nat)
  deriving DecidableEq, Repr

/-- Apply a write to the context a session owns; a slot that is empty (released) or a
write that panics leaves the state as it is. -/
def PoolState.update (s : PoolState) (slot : Nat) (f : Conn → Option Conn) : PoolState :=
  match s.live[slot]? with
  | some (some conn) =>
    match f conn with
    | some conn => { s with live := s.live.set slot (some conn) }
    | none => s
  | _ => s

/-- One step: the next state and what `acquireConn` returned, when the step is an acquire.
`evict` is the pool dropping an item on its own, as `sync.Pool` may at any time. -/
def PoolState.step (s : PoolState) (op : Op) : PoolState × List (Option Conn) :=
  match op with
  | Op.acquire pick =>
    match acquireConn s.pool pick with
    | (some conn, pool) => ({ pool := pool, live := s.live ++ [some conn] }, [some conn])
    | (none, pool) => ({ s with pool := pool }, [none])
  | Op.setLocal slot key value => (s.update slot (fun c => c.setLocal key value), [])
  | Op.setParam slot key value => (s.update slot (fun c => c.setParam key value), [])
  | Op.setQuery slot key value => (s.update slot (fun c => c.setQuery key value), [])
  | Op.setCookie slot key value => (s.update slot (fun c => c.setCookie key value), [])
  | Op.setHeader slot key value => (s.update slot (fun c => c.setHeader key value), [])
  | Op.setHandle slot fconn =>
    (s.update slot (fun c => some { c with Conn := some fconn }), [])
  | Op.release slot =>
    match s.live[slot]? with
    | some (some conn) =>
      ({ pool := releaseConn s.pool conn, live := s.live.set slot none }, [])
    | _ => (s, [])
  | Op.evict i => ({ s with pool := s.pool.eraseIdx i }, [])

/-- Run a sequence of operations: the final state and everything `acquireConn` returned,
in order. -/
def PoolState.run (s : PoolState) (ops : List Op) : PoolState × List (Option Conn) :=
  match ops with
  | [] => (s, [])
  | op :: rest =>
    let r := s.step op
    let t := r.1.run rest
    (t.1, r.2 ++ t.2)

/-- The results of the calls of `acquireConn` in a run from program start. -/
def acquired (ops : List Op) : List (Option Conn) :=
  (PoolState.init.run ops).2

/-- All five maps of the context exist and have no entry. -/
def Conn.mapsEmpty (conn : V3.Conn) : Prop :=
  conn.locals = some [] ∧ conn.params = some [] ∧ conn.queries = some [] ∧
    conn.cookies = some [] ∧ conn.headers = some []

/-! ## The handler -/

/-- What a run of the handler meets outside the package: the result of `c.Next()`, the
choice of `poolConn.Get`, whether the checks the upgrader makes itself pass (`handshake`
before the origin check, `challenge` after it), the upgraded connection, and the result of
`DialContext` for an address (`none`: the dial fails). -/
structure Env where
  next : Option Error
  pick : Option Nat
  handshake : Bool
  challenge : Bool
  fconn : Nat
  dial : String → Option Nat

/-- Result of a run of the handler: how it ended, what it did, the pool afterwards. -/
structure Result where
  outcome : Outcome
  events : List Event
  pool : Pool

/-- The call `c.Locals(key, value)`, which stores a user value on the request. -/
def Ctx.Locals (c : Ctx) (key : String) (value : Any) : Ctx :=
  { c with userValues := (key, value) :: c.userValues.filter (fun e => e.1 != key) }

/-- The conversion `utils.CopyString`: the same string over fresh storage. -/
def CopyString (s : String) : String := s

/-- The five copy loops of the handler, in order: user values, route parameters, query
arguments, cookies, headers (`none`: one of the assignments panics). -/
def populate (conn : Conn) (c : Ctx) : Option Conn := do
  let conn ← c.userValues.foldlM (fun conn kv => conn.setLocal kv.1 kv.2) conn
  let conn ← c.routeParams.foldlM
    (fun conn p => conn.setParam (CopyString p) (CopyString (c.Params p))) conn
  let conn ← c.queryArgs.foldlM (fun conn kv => conn.setQuery kv.1 kv.2) conn
  let conn ← c.cookies.foldlM (fun conn kv => conn.setCookie kv.1 kv.2) conn
  c.headers.foldlM (fun conn kv => conn.setHeader kv.1 kv.2) conn

/-- The callback given to `upgrader.Upgrade`: store the handle, dial the backend, run the
bridge when the dial succeeds, close the backend connection, release the context. -/
def upgradeCallback (env : Env) (addr : String) (pool : Pool) (conn : Conn) :
    List Event × Pool :=
  let conn := { conn with Conn := some env.fconn }
  match env.dial addr with
  | none => ([Event.dial, Event.release], releaseConn pool conn)
  | some _ =>
    ([Event.dial, Event.bridge, Event.closeBackend, Event.release], releaseConn pool conn)

/-- The function `New`: the handler built over `cfg := configDefault(config)`, run on one
request. The upgrader first makes its own checks of the request, then calls `CheckOrigin`,
then checks the challenge key; the callback, which the server runs on the hijacked
connection, is run here as the last action. -/
def New (config : Config) (addr : String) (env : Env) (pool : Pool) (c : Ctx) : Result :=
  let cfg := configDefault [config]
  let skip := match cfg.Filter with
    | some f => f c
    | none => false
  if skip then
    { outcome := Outcome.returned env.next, events := [Event.next], pool := pool }
  else
    match acquireConn pool env.pick with
    | (none, pool) =>
      { outcome := Outcome.returned (some Error.internalServerError),
        events := [Event.acquire], pool := pool }
    | (some conn, pool) =>
      let c := c.Locals "websocket" Any.conn
      match populate conn c with
      | none => { outcome := Outcome.panicked, events := [Event.acquire], pool := pool }
      | some conn =>
        if !env.handshake then
          { outcome := Outcome.returned (some Error.upgradeRequired),
            events := [Event.acquire, Event.upgrade], pool := pool }
        else
          match CheckOrigin cfg c with
          | none =>
            { outcome := Outcome.panicked, events := [Event.acquire, Event.upgrade],
              pool := pool }
          | some false =>
            { outcome := Outcome.returned (some Error.upgradeRequired),
              events := [Event.acquire, Event.upgrade], pool := pool }
          | some true =>
            if !env.challenge then
              { outcome := Outcome.returned (some Error.upgradeRequired),
                events := [Event.acquire, Event.upgrade], pool := pool }
            else
              let r := upgradeCallback env addr pool conn
              { outcome := Outcome.returned none,
                events := [Event.acquire, Event.upgrade] ++ r.1, pool := r.2 }

/-! ## The bridge, direction backend to framed connection -/

/-- How a call `io.Copy(writer, conn)` ends: the backend read reports EOF, the backend
read fails, or the write into the frame writer fails. -/
inductive CopyEnd
  | eof
  | readError
  | writeError
  deriving DecidableEq, Repr

/-- What the loop of `writeMessages` meets: the error of the `n`-th call of
`w.NextWriter(websocket.BinaryMessage)` (`none`: a writer is returned) and how the `n`-th
copy ends (`none`: it never returns). -/
structure WriterEnv where
  NextWriter : Nat → Option Error
  Copy : Nat → Option CopyEnd

/-- What the loop is seen to do: request the `n`-th frame writer, end the `n`-th copy. -/
inductive BridgeEvent
  | nextWriter (n : Nat)
  | copyEnd (n : Nat) (e : CopyEnd)
  deriving DecidableEq, Repr

/-- State of the loop after some iterations: it has returned an error, it is inside a copy
that never returns, or it is still iterating. -/
inductive LoopResult
  | returned (err : Error)
  | blocked
  | running
  deriving DecidableEq, Repr

/-- The body `for { ... }` of the function `writeMessages` returns, from iteration `n` on,
for at most `fuel` iterations. The values `io.Copy` returns are dropped. -/
def writeLoop (env : WriterEnv) (fuel n : Nat) : LoopResult × List BridgeEvent :=
  match fuel with
  | 0 => (LoopResult.running, [])
  | fuel + 1 =>
    match env.NextWriter n with
    | some err => (LoopResult.returned err, [BridgeEvent.nextWriter n])
    | none =>
      match env.Copy n with
      | none => (LoopResult.blocked, [BridgeEvent.nextWriter n])
      | some e =>
        let r := writeLoop env fuel (n + 1)
        (r.1, BridgeEvent.nextWriter n :: BridgeEvent.copyEnd n e :: r.2)

/-- The function that `writeMessages` returns, run for at most `fuel` iterations. -/
def writeMessages (env : WriterEnv) (fuel : Nat) : LoopResult × List BridgeEvent :=
  writeLoop env fuel 0

/-- The backend has closed its side, so each copy ends at once with EOF; the framed
connection stays healthy and gives a writer whenever asked. -/
def backendClosed : WriterEnv :=
  { NextWriter := fun _ => none, Copy := fun _ => some CopyEnd.eof }

/-! ## Predicates on the pool and on the loop -/

/-- Every pooled item is a context whose connection handle is nil. -/
def Pool.Clean (pool : Pool) : Prop :=
  ∀ item ∈ pool, ∃ c : Conn, item = PoolItem.conn c ∧ c.Conn = none

/-- All five maps of the context exist (none is the nil map), so assignments into them
do not panic. -/
def Conn.mapsMade (conn : V3.Conn) : Prop :=
  conn.locals ≠ none ∧ conn.params ≠ none ∧ conn.queries ≠ none ∧
    conn.cookies ≠ none ∧ conn.headers ≠ none

/-- The events of `n` iterations in which a writer is obtained and the copy ends with
EOF, from iteration `k` on. -/
def eofRounds (k : Nat) : Nat → List BridgeEvent
  | 0 => []
  | n + 1 => BridgeEvent.nextWriter k :: BridgeEvent.copyEnd k CopyEnd.eof :: eofRounds (k + 1) n

/-! ## Sample inputs -/

/-- A configuration whose origin list starts with the wildcard and has a second entry. -/
def wildcardFirst : Config :=
  Config.ofOrigins ["*", "https://a.test"]

/-- A request whose Origin header is none of the entries of `wildcardFirst`. -/
def evilRequest : Ctx :=
  Ctx.ofHeaders [("Origin", "https://evil.test")]

/-- A configuration in which every field is set. -/
def fullConfig : Config :=
  { Filter := some (fun _ => false), HandshakeTimeout := 5000000000,
    Subprotocols := some ["nats"], Origins := some ["https://a.test"],
    ReadBufferSize := 4096, WriteBufferSize := 1, WriteBufferPool := some 0,
    EnableCompression := true }

/-- A configuration with a negative read buffer size. -/
def negativeRead : Config :=
  { Config.zero with ReadBufferSize := -1 }

/-- One session fills its context and releases it, then a second session acquires and is
handed the very same object. -/
def reuseScenario : List Op :=
  [Op.acquire none,
   Op.setLocal 0 "user" (Any.str "alice"),
   Op.setParam 0 "id" "42",
   Op.setQuery 0 "token" "s3cret",
   Op.setCookie 0 "session" "abc",
   Op.setHeader 0 "Origin" "https://a.test",
   Op.setHandle 0 7,
   Op.release 0,
   Op.acquire (some 0)]

/-- The context of the first session of `reuseScenario`, as it lies in the pool after the
release. -/
def usedConn : Conn :=
  { Conn := none,
    locals := some [("user", Any.str "alice")],
    params := some [("id", "42")],
    cookies := some [("session", "abc")],
    headers := some [("Origin", "https://a.test")],
    queries := some [("token", "s3cret")] }

/-- A context with a nil handle and five empty maps. -/
def cleanConn : Conn :=
  { Conn := none, locals := some [], params := some [], cookies := some [],
    headers := some [], queries := some [] }

/-- A context whose params map stores the empty string under "id". -/
def emptyParam : Conn :=
  { cleanConn with params := some [("id", "")] }

/-- A configuration whose filter skips every request. -/
def skipAll : Config :=
  { Config.zero with Filter := some (fun _ => true) }

/-- An environment in which the next handler fails with error 404, the pool creates a new
context, the upgrade would succeed and the backend would accept. -/
def sampleEnv : Env :=
  { next := some (Error.other 404), pick := none, handshake := true, challenge := true,
    fconn := 7, dial := fun _ => some 1 }

end V3

/-! ## The root package (`relay.go`) -/

/-- What the handler of the root package reads from a request: nothing but what the filter
looks at. -/
structure Ctx where
  path : String
  headers : List (String × String)

/-- The configuration of the root package (`Config`). -/
structure Config where
  Filter : Option (Ctx → Bool)
  HandshakeTimeout : Int

/-- The function `configDefault` of the root package: the first argument, or the zero
value. -/
def configDefault (config : List Config) : Config :=
  match config with
  | [] => { Filter := none, HandshakeTimeout := 0 }
  | c :: _ => c

set_option linter.unusedVariables false in
/-- The function `New` of the root package, run on one request; `next` is what `c.Next()`
returns. The address is not used. -/
def New (config : Config) (addr : String) (next : Option Error) (c : Ctx) :
    Outcome × List Event :=
  let cfg := configDefault [config]
  let skip := match cfg.Filter with
    | some f => f c
    | none => false
  if skip then (Outcome.returned next, [Event.next])
  else (Outcome.returned none, [])

end Relay

/-! # Properties -/

namespace Relay

namespace V3

/-! ## Configuration resolution -/

/-- The origin list of a resolved configuration, case by case on the input list. -/
theorem configDefault_Origins_eq (c : Config) :
    (configDefault [c]).Origins = if sliceLen c.Origins = 0 then some ["*"] else c.Origins := by
  unfold configDefault
  dsimp only
  split_ifs <;> rfl

/-- The read buffer size of a resolved configuration. -/
theorem configDefault_ReadBufferSize_eq (c : Config) :
    (configDefault [c]).ReadBufferSize =
      if c.ReadBufferSize = 0 then 1024 else c.ReadBufferSize := by
  unfold configDefault
  dsimp only
  split_ifs <;> rfl

/-- The write buffer size of a resolved configuration. -/
theorem configDefault_WriteBufferSize_eq (c : Config) :
    (configDefault [c]).WriteBufferSize =
      if c.WriteBufferSize = 0 then 1024 else c.WriteBufferSize := by
  unfold configDefault
  dsimp only
  split_ifs <;> rfl

/-- A configuration with a non-empty origin list and non-zero buffer sizes is a fixed point
of the resolution. -/
theorem configDefault_fixed (c : Config) (ho : sliceLen c.Origins ≠ 0)
    (hr : c.ReadBufferSize ≠ 0) (hw : c.WriteBufferSize ≠ 0) : configDefault [c] = c := by
  unfold configDefault
  simp [ho, hr, hw]

/-- The origin list of a resolved configuration is never empty. -/
theorem configDefault_Origins_len (c : Config) : sliceLen (configDefault [c]).Origins ≠ 0 := by
  rw [configDefault_Origins_eq]
  split_ifs with h
  · simp [sliceLen]
  · exact h

/-- The loop of the origin check finds the origin exactly when it is one of the entries. -/
theorem originLoop_eq_true_iff (origins : List String) (origin : String) :
    originLoop origins origin = true ↔ origin ∈ origins := by
  induction origins with
  | nil => simp [originLoop]
  | cons o rest ih =>
    unfold originLoop
    by_cases h : o = origin
    · simp [h]
    · have h2 : ¬ origin = o := fun e => h e.symm
      simp [h, h2, ih]

/-- On a non-empty origin list the origin check is defined, and its value is known. -/
theorem CheckOrigin_cons (cfg : Config) (fctx : Ctx) (o : String) (os : List String)
    (h : cfg.Origins = some (o :: os)) :
    CheckOrigin cfg fctx =
      some (if o = "*" then true
        else originLoop (o :: os) (UnsafeString (fctx.Peek "Origin"))) := by
  unfold CheckOrigin
  simp only [h, sliceIndex, sliceElems, List.getElem?_cons_zero]
  split_ifs <;> rfl

/-- A resolved origin list has a first entry. -/
theorem configDefault_Origins_cons (c : Config) :
    ∃ o os, (configDefault [c]).Origins = some (o :: os) := by
  have h := configDefault_Origins_len c
  cases hO : (configDefault [c]).Origins with
  | none => simp [hO, sliceLen] at h
  | some l =>
    cases l with
    | nil => simp [hO, sliceLen] at h
    | cons o os => exact ⟨o, os, rfl⟩

/-! ### C1 -/

/-- C1, as stated, fails: the resolved origin list of `wildcardFirst` is not the single
wildcard entry, the Origin value of `evilRequest` equals none of its entries, and yet the
origin check accepts the request. -/
theorem CheckOrigin_wildcard_first_accepts_unlisted :
    (configDefault [wildcardFirst]).Origins ≠ some ["*"] ∧
    UnsafeString (evilRequest.Peek "Origin") ∉ sliceElems (configDefault [wildcardFirst]).Origins ∧
    CheckOrigin (configDefault [wildcardFirst]) evilRequest = some true := by
  decide

/-- C1, amended: for every resolved configuration and every request (the Origin header
absent or present), the origin check returns a verdict, and it accepts exactly when the
first entry of the origin list is the wildcard "*" or the Origin value, read as the empty
string when the header is absent, is equal to one of the entries. -/
theorem CheckOrigin_accepts_iff (c : Config) (fctx : Ctx) :
    (∃ b, CheckOrigin (configDefault [c]) fctx = some b) ∧
    (CheckOrigin (configDefault [c]) fctx = some true ↔
      (sliceIndex (configDefault [c]).Origins 0 = some "*" ∨
        UnsafeString (fctx.Peek "Origin") ∈ sliceElems (configDefault [c]).Origins)) := by
  obtain ⟨o, os, h⟩ := configDefault_Origins_cons c
  rw [CheckOrigin_cons _ fctx o os h]
  refine ⟨⟨_, rfl⟩, ?_⟩
  simp only [h, sliceIndex, sliceElems, List.getElem?_cons_zero, Option.some.injEq]
  by_cases hw : o = "*"
  · simp [hw]
  · simp only [hw, if_false, false_or]
    exact originLoop_eq_true_iff (o :: os) _

/-! ### C2 -/

/-- C2: an unset (nil) or empty origin list resolves to the single entry "*", and a
non-empty origin list is returned as it is, same entries in the same order. -/
theorem configDefault_origins (c : Config) :
    (c.Origins = none ∨ c.Origins = some [] → (configDefault [c]).Origins = some ["*"]) ∧
    (∀ o os, c.Origins = some (o :: os) → (configDefault [c]).Origins = some (o :: os)) := by
  constructor
  · intro h
    rw [configDefault_Origins_eq]
    rcases h with h | h <;> simp [h, sliceLen]
  · intro o os h
    rw [configDefault_Origins_eq]
    simp [h, sliceLen]

/-- Witness of C2, on the zero configuration, on an empty list and on a list of two
entries. -/
theorem configDefault_origins_witness :
    (configDefault [Config.zero]).Origins = some ["*"] ∧
    (configDefault [Config.ofOrigins []]).Origins = some ["*"] ∧
    (configDefault [Config.ofOrigins ["https://b.test", "https://a.test"]]).Origins =
      some ["https://b.test", "https://a.test"] :=
  ⟨(configDefault_origins Config.zero).1 (Or.inl rfl),
   (configDefault_origins (Config.ofOrigins [])).1 (Or.inr rfl),
   (configDefault_origins (Config.ofOrigins ["https://b.test", "https://a.test"])).2 _ _ rfl⟩

/-! ### C3 -/

/-- C3: a zero read buffer size resolves to 1024 and a positive one is kept, the same
holds for the write buffer size whatever the other fields are, and a configuration with a
non-empty origin list and two positive buffer sizes is returned unchanged. -/
theorem configDefault_buffer_sizes (c : Config) :
    (c.ReadBufferSize = 0 → (configDefault [c]).ReadBufferSize = 1024) ∧
    (0 < c.ReadBufferSize → (configDefault [c]).ReadBufferSize = c.ReadBufferSize) ∧
    (c.WriteBufferSize = 0 → (configDefault [c]).WriteBufferSize = 1024) ∧
    (0 < c.WriteBufferSize → (configDefault [c]).WriteBufferSize = c.WriteBufferSize) ∧
    (sliceLen c.Origins ≠ 0 → 0 < c.ReadBufferSize → 0 < c.WriteBufferSize →
      configDefault [c] = c) := by
  refine ⟨?_, ?_, ?_, ?_, ?_⟩
  · intro h
    rw [configDefault_ReadBufferSize_eq, if_pos h]
  · intro h
    rw [configDefault_ReadBufferSize_eq, if_neg (ne_of_gt h)]
  · intro h
    rw [configDefault_WriteBufferSize_eq, if_pos h]
  · intro h
    rw [configDefault_WriteBufferSize_eq, if_neg (ne_of_gt h)]
  · intro ho hr hw
    exact configDefault_fixed c ho (ne_of_gt hr) (ne_of_gt hw)

/-- Witness of C3, on the zero configuration and on `fullConfig`. -/
theorem configDefault_buffer_sizes_witness :
    (configDefault [Config.zero]).ReadBufferSize = 1024 ∧
    (configDefault [Config.zero]).WriteBufferSize = 1024 ∧
    (configDefault [fullConfig]).ReadBufferSize = 4096 ∧
    (configDefault [fullConfig]).WriteBufferSize = 1 ∧
    configDefault [fullConfig] = fullConfig :=
  ⟨(configDefault_buffer_sizes Config.zero).1 rfl,
   (configDefault_buffer_sizes Config.zero).2.2.1 rfl,
   (configDefault_buffer_sizes fullConfig).2.1 (by decide),
   (configDefault_buffer_sizes fullConfig).2.2.2.1 (by decide),
   (configDefault_buffer_sizes fullConfig).2.2.2.2 (by decide) (by decide) (by decide)⟩

/-! ### C4 -/

/-- C4, as stated, fails: a read buffer size of -1 is returned as -1, which is not
strictly positive. -/
theorem configDefault_negative_size_kept :
    (configDefault [negativeRead]).ReadBufferSize = -1 ∧
    ¬ (0 < (configDefault [negativeRead]).ReadBufferSize ∧
        0 < (configDefault [negativeRead]).WriteBufferSize) := by
  decide

/-- C4, amended: for every input configuration whose two buffer sizes are not negative,
the resolved configuration has both buffer sizes strictly positive. -/
theorem configDefault_sizes_pos (c : Config) (hr : 0 ≤ c.ReadBufferSize)
    (hw : 0 ≤ c.WriteBufferSize) :
    0 < (configDefault [c]).ReadBufferSize ∧ 0 < (configDefault [c]).WriteBufferSize := by
  rw [configDefault_ReadBufferSize_eq, configDefault_WriteBufferSize_eq]
  constructor
  · split_ifs with h
    · decide
    · omega
  · split_ifs with h
    · decide
    · omega

/-- Witness of the amended C4, on the zero configuration. -/
theorem configDefault_sizes_pos_witness :
    0 < (configDefault [Config.zero]).ReadBufferSize ∧
    0 < (configDefault [Config.zero]).WriteBufferSize :=
  configDefault_sizes_pos Config.zero (by decide) (by decide)

/-! ### C5 -/

/-- C5: resolving a resolved configuration gives the same configuration, in every field. -/
theorem configDefault_idempotent (c : Config) :
    configDefault [configDefault [c]] = configDefault [c] := by
  apply configDefault_fixed
  · exact configDefault_Origins_len c
  · rw [configDefault_ReadBufferSize_eq]
    split_ifs with h
    · decide
    · exact h
  · rw [configDefault_WriteBufferSize_eq]
    split_ifs with h
    · decide
    · exact h

/-! ## The connection pool -/

/-- What the pool hands out is a fresh context or one of its items. -/
theorem Pool.Get_fst (pool : Pool) (pick : Option Nat) :
    (pool.Get pick).1 = poolConnNew ∨ (pool.Get pick).1 ∈ pool := by
  cases pick with
  | none => exact Or.inl rfl
  | some i =>
    cases h : pool[i]? with
    | none =>
      left
      simp only [Pool.Get, h]
    | some item =>
      right
      simp only [Pool.Get, h]
      exact List.getElem?_mem h

/-- What the pool keeps after handing out an item was in the pool before. -/
theorem Pool.Get_snd_subset (pool : Pool) (pick : Option Nat) :
    ∀ item ∈ (pool.Get pick).2, item ∈ pool := by
  cases pick with
  | none => exact fun _ h => h
  | some i =>
    cases h : pool[i]? with
    | none =>
      simp only [Pool.Get, h]
      exact fun _ h => h
    | some item =>
      simp only [Pool.Get, h]
      exact fun _ h => List.mem_of_mem_eraseIdx h

/-- Whatever the pool holds, a context that `acquireConn` returns has five empty maps and
the handle of the item it was made from. -/
theorem acquireConn_some (pool : Pool) (pick : Option Nat) (conn : Conn)
    (h : (acquireConn pool pick).1 = some conn) :
    conn.mapsEmpty ∧ ∃ c, (pool.Get pick).1 = PoolItem.conn c ∧ conn.Conn = c.Conn := by
  unfold acquireConn at h
  rcases hg : pool.Get pick with ⟨item, rest⟩
  rw [hg] at h
  cases item with
  | foreign tag => simp at h
  | conn c =>
    simp only [Option.some.injEq] at h
    subst h
    exact ⟨⟨rfl, rfl, rfl, rfl, rfl⟩, c, rfl, rfl⟩

/-- The pool that `acquireConn` leaves is what `Get` leaves. -/
theorem acquireConn_snd (pool : Pool) (pick : Option Nat) :
    (acquireConn pool pick).2 = (pool.Get pick).2 := by
  unfold acquireConn
  rcases pool.Get pick with ⟨item, rest⟩
  cases item <;> rfl

/-- On a clean pool `acquireConn` succeeds, with a nil handle and five empty maps. -/
theorem acquireConn_of_clean (pool : Pool) (pick : Option Nat) (hc : pool.Clean) :
    ∃ conn, (acquireConn pool pick).1 = some conn ∧ conn.mapsEmpty ∧ conn.Conn = none := by
  have hitem : ∃ c : Conn, (pool.Get pick).1 = PoolItem.conn c ∧ c.Conn = none := by
    rcases Pool.Get_fst pool pick with h | h
    · exact ⟨Conn.new, h, rfl⟩
    · exact hc _ h
  obtain ⟨c, hget, hnil⟩ := hitem
  have hs : ∃ conn, (acquireConn pool pick).1 = some conn := by
    unfold acquireConn
    rcases hg : pool.Get pick with ⟨item, rest⟩
    rw [hg] at hget
    simp only at hget
    subst hget
    exact ⟨_, rfl⟩
  obtain ⟨conn, hconn⟩ := hs
  obtain ⟨hm, c2, hget2, hh⟩ := acquireConn_some pool pick conn hconn
  rw [hget] at hget2
  cases hget2
  exact ⟨conn, hconn, hm, hh.trans hnil⟩

/-- A clean pool stays clean when `acquireConn` takes from it. -/
theorem acquireConn_clean (pool : Pool) (pick : Option Nat) (hc : pool.Clean) :
    Pool.Clean (acquireConn pool pick).2 := by
  rw [acquireConn_snd]
  exact fun item h => hc item (Pool.Get_snd_subset pool pick item h)

/-- A clean pool stays clean when `releaseConn` puts a context back, whatever handle and
maps the context has. -/
theorem releaseConn_clean (pool : Pool) (conn : Conn) (hc : pool.Clean) :
    Pool.Clean (releaseConn pool conn) := by
  intro item h
  unfold releaseConn Pool.Put at h
  rcases List.mem_cons.mp h with h | h
  · exact ⟨_, h, rfl⟩
  · exact hc item h

/-- Writing to an owned context leaves the pool as it is. -/
theorem PoolState.update_pool (s : PoolState) (slot : Nat) (f : Conn → Option Conn) :
    (s.update slot f).pool = s.pool := by
  unfold PoolState.update
  split
  · split <;> rfl
  · rfl

/-- One step keeps the pool clean, and on a clean pool an acquire succeeds with five empty
maps and a nil handle. -/
theorem PoolState.step_clean (s : PoolState) (op : Op) (hc : s.pool.Clean) :
    (s.step op).1.pool.Clean ∧
      ∀ r ∈ (s.step op).2, ∃ conn, r = some conn ∧ conn.mapsEmpty ∧ conn.Conn = none := by
  cases op with
  | acquire pick =>
    obtain ⟨conn, h1, h2, h3⟩ := acquireConn_of_clean s.pool pick hc
    have hcl := acquireConn_clean s.pool pick hc
    simp only [PoolState.step]
    rcases ha : acquireConn s.pool pick with ⟨r, rest⟩
    rw [ha] at h1 hcl
    simp only at h1 hcl
    subst h1
    refine ⟨hcl, ?_⟩
    intro r hr
    simp only [List.mem_singleton] at hr
    exact ⟨conn, hr, h2, h3⟩
  | release slot =>
    simp only [PoolState.step]
    split
    · exact ⟨releaseConn_clean _ _ hc, by simp⟩
    · exact ⟨hc, by simp⟩
  | evict i =>
    simp only [PoolState.step]
    exact ⟨fun item h => hc item (List.mem_of_mem_eraseIdx h), by simp⟩
  | setLocal slot key value =>
    simp only [PoolState.step, PoolState.update_pool]
    exact ⟨hc, by simp⟩
  | setParam slot key value =>
    simp only [PoolState.step, PoolState.update_pool]
    exact ⟨hc, by simp⟩
  | setQuery slot key value =>
    simp only [PoolState.step, PoolState.update_pool]
    exact ⟨hc, by simp⟩
  | setCookie slot key value =>
    simp only [PoolState.step, PoolState.update_pool]
    exact ⟨hc, by simp⟩
  | setHeader slot key value =>
    simp only [PoolState.step, PoolState.update_pool]
    exact ⟨hc, by simp⟩
  | setHandle slot fconn =>
    simp only [PoolState.step, PoolState.update_pool]
    exact ⟨hc, by simp⟩

/-- A run from a clean pool ends on a clean pool, and every acquire in it succeeds with
five empty maps and a nil handle. -/
theorem PoolState.run_clean (ops : List Op) (s : PoolState) (hc : s.pool.Clean) :
    (s.run ops).1.pool.Clean ∧
      ∀ r ∈ (s.run ops).2, ∃ conn, r = some conn ∧ conn.mapsEmpty ∧ conn.Conn = none := by
  induction ops generalizing s with
  | nil => exact ⟨hc, by simp [PoolState.run]⟩
  | cons op rest ih =>
    obtain ⟨h1, h2⟩ := PoolState.step_clean s op hc
    obtain ⟨h3, h4⟩ := ih (s.step op).1 h1
    unfold PoolState.run
    refine ⟨h3, ?_⟩
    intro r hr
    rcases List.mem_append.mp hr with hr | hr
    · exact h2 r hr
    · exact h4 r hr

/-- The pool is clean at program start. -/
theorem PoolState.init_clean : PoolState.init.pool.Clean := by
  intro item h
  simp [PoolState.init] at h

/-! ### C6 and C7 -/

/-- C6: whatever the pool holds, a context returned by `acquireConn` has its locals,
params, queries, cookies and headers maps empty; and in every sequence of acquire,
populate, set-handle, release (and eviction) operations from program start, every call of
`acquireConn` succeeds and returns a context with these five maps empty. -/
theorem acquireConn_maps_empty :
    (∀ (pool : Pool) (pick : Option Nat) (conn : Conn),
      (acquireConn pool pick).1 = some conn → conn.mapsEmpty) ∧
    (∀ (ops : List Op) (r : Option Conn), r ∈ acquired ops →
      ∃ conn, r = some conn ∧ conn.mapsEmpty) := by
  constructor
  · intro pool pick conn h
    exact (acquireConn_some pool pick conn h).1
  · intro ops r hr
    obtain ⟨conn, h1, h2, _⟩ := (PoolState.run_clean ops PoolState.init PoolState.init_clean).2 r hr
    exact ⟨conn, h1, h2⟩

/-- Witness of C6: in `reuseScenario` the pool holds the filled context of the first
session when the second one acquires, and the second session gets it with empty maps. -/
theorem acquireConn_maps_empty_witness :
    (PoolState.init.run (reuseScenario.take 8)).1.pool = [PoolItem.conn usedConn] ∧
    (acquireConn [PoolItem.conn usedConn] (some 0)).1 = some cleanConn ∧
    cleanConn.mapsEmpty ∧
    some cleanConn ∈ acquired reuseScenario ∧
    (∃ conn, some cleanConn = some conn ∧ conn.mapsEmpty) :=
  ⟨by decide, by decide,
   acquireConn_maps_empty.1 [PoolItem.conn usedConn] (some 0) cleanConn (by decide),
   by decide,
   acquireConn_maps_empty.2 reuseScenario (some cleanConn) (by decide)⟩

/-- C7: `releaseConn` puts the context into the pool with its connection handle set to
nil; and in every sequence of acquire, populate, set-handle, release (and eviction)
operations from program start, every call of `acquireConn` succeeds and returns a context
whose connection handle is nil. -/
theorem releaseConn_clears_handle :
    (∀ (pool : Pool) (conn : Conn),
      releaseConn pool conn = pool.Put (PoolItem.conn { conn with Conn := none })) ∧
    (∀ (ops : List Op) (r : Option Conn), r ∈ acquired ops →
      ∃ conn, r = some conn ∧ conn.Conn = none) := by
  constructor
  · intro pool conn
    rfl
  · intro ops r hr
    obtain ⟨conn, h1, _, h3⟩ := (PoolState.run_clean ops PoolState.init PoolState.init_clean).2 r hr
    exact ⟨conn, h1, h3⟩

/-- Witness of C7: in `reuseScenario` the first session holds the handle 7 right before it
releases, and the second session gets the same object with a nil handle. -/
theorem releaseConn_clears_handle_witness :
    ((PoolState.init.run (reuseScenario.take 7)).1.live.map (Option.map Conn.Conn)) =
      [some (some 7)] ∧
    acquired reuseScenario = [some cleanConn, some cleanConn] ∧
    (∃ conn, some cleanConn = some conn ∧ conn.Conn = none) :=
  ⟨by decide, by decide,
   releaseConn_clears_handle.2 reuseScenario (some cleanConn) (by decide)⟩

/-! ## The filter gate -/

/-- Resolution leaves the filter as it is. -/
theorem configDefault_Filter (c : Config) : (configDefault [c]).Filter = c.Filter := by
  unfold configDefault
  dsimp only
  split_ifs <;> rfl

/-- When the filter is nil the handler goes on to `acquireConn`. -/
theorem New_events_of_no_filter (config : Config) (addr : String) (env : Env) (pool : Pool)
    (c : Ctx) (h : config.Filter = none) :
    ∃ rest, (New config addr env pool c).events = Event.acquire :: rest ∧
      Event.next ∉ rest := by
  unfold New
  simp only [configDefault_Filter, h]
  simp only [Bool.false_eq_true, if_false]
  rcases acquireConn pool env.pick with ⟨r, rest⟩
  cases r with
  | none => exact ⟨[], rfl, by simp⟩
  | some conn =>
    simp only
    cases populate conn (c.Locals "websocket" Any.conn) with
    | none => exact ⟨[], rfl, by simp⟩
    | some conn2 =>
      simp only
      cases env.handshake with
      | false => exact ⟨[Event.upgrade], rfl, by simp⟩
      | true =>
        simp only [Bool.not_true, Bool.false_eq_true, if_false]
        cases CheckOrigin (configDefault [config]) (c.Locals "websocket" Any.conn) with
        | none => exact ⟨[Event.upgrade], rfl, by simp⟩
        | some b =>
          cases b with
          | false => exact ⟨[Event.upgrade], rfl, by simp⟩
          | true =>
            simp only
            cases env.challenge with
            | false => exact ⟨[Event.upgrade], rfl, by simp⟩
            | true =>
              simp only [Bool.not_true, Bool.false_eq_true, if_false]
              refine ⟨_, rfl, ?_⟩
              unfold upgradeCallback
              cases env.dial addr <;> simp

/-! ### C8 -/

/-- C8: when a filter is configured and returns true for the request, the handler returns
exactly what `c.Next()` returns, and calling the next handler is all it does: it does not
acquire a context, does not invoke the upgrade and leaves the pool as it is; when the
filter is nil, the handler never calls the next handler and its first action is to acquire
a context. The handler of the root package behaves the same way at its gate: it returns
what `c.Next()` returns in the first case, and returns nil without calling the next handler
in the second. -/
theorem New_filter_gate (config : Config) (addr : String) (env : Env) (pool : Pool)
    (c : Ctx) (rootConfig : Relay.Config) (next : Option Error) (rc : Relay.Ctx) :
    (∀ f, config.Filter = some f → f c = true →
      (New config addr env pool c).outcome = Outcome.returned env.next ∧
      (New config addr env pool c).events = [Event.next] ∧
      (New config addr env pool c).pool = pool) ∧
    (config.Filter = none →
      Event.next ∉ (New config addr env pool c).events ∧
      (New config addr env pool c).events.head? = some Event.acquire) ∧
    (∀ f, rootConfig.Filter = some f → f rc = true →
      Relay.New rootConfig addr next rc = (Outcome.returned next, [Event.next])) ∧
    (rootConfig.Filter = none →
      Relay.New rootConfig addr next rc = (Outcome.returned none, [])) := by
  refine ⟨?_, ?_, ?_, ?_⟩
  · intro f hf hfc
    simp [New, configDefault_Filter, hf, hfc]
  · intro h
    obtain ⟨rest, h1, h2⟩ := New_events_of_no_filter config addr env pool c h
    rw [h1]
    refine ⟨?_, rfl⟩
    simp [h2]
  · intro f hf hfc
    simp [Relay.New, Relay.configDefault, hf, hfc]
  · intro h
    simp [Relay.New, Relay.configDefault, h]

/-- Witness of C8: with `skipAll` the handler returns the error of the next handler and
does nothing else; with the zero configuration, whose filter is nil, it acquires first and
never calls the next handler. -/
theorem New_filter_gate_witness :
    ((New skipAll "localhost:4222" sampleEnv [] (Ctx.ofHeaders [])).outcome =
        Outcome.returned (some (Error.other 404)) ∧
      (New skipAll "localhost:4222" sampleEnv [] (Ctx.ofHeaders [])).events = [Event.next] ∧
      (New skipAll "localhost:4222" sampleEnv [] (Ctx.ofHeaders [])).pool = []) ∧
    (Event.next ∉ (New Config.zero "localhost:4222" sampleEnv [] (Ctx.ofHeaders [])).events ∧
      (New Config.zero "localhost:4222" sampleEnv [] (Ctx.ofHeaders [])).events.head? =
        some Event.acquire) ∧
    Relay.New { Filter := some (fun _ => true), HandshakeTimeout := 0 } "localhost:4222"
        (some (Error.other 404)) { path := "/ws", headers := [] } =
      (Outcome.returned (some (Error.other 404)), [Event.next]) ∧
    Relay.New { Filter := none, HandshakeTimeout := 0 } "localhost:4222"
        (some (Error.other 404)) { path := "/ws", headers := [] } =
      (Outcome.returned none, []) :=
  ⟨(New_filter_gate skipAll "localhost:4222" sampleEnv [] (Ctx.ofHeaders [])
      { Filter := none, HandshakeTimeout := 0 } none { path := "/ws", headers := [] }).1
      (fun _ => true) rfl rfl,
   (New_filter_gate Config.zero "localhost:4222" sampleEnv [] (Ctx.ofHeaders [])
      { Filter := none, HandshakeTimeout := 0 } none { path := "/ws", headers := [] }).2.1 rfl,
   (New_filter_gate Config.zero "localhost:4222" sampleEnv [] (Ctx.ofHeaders [])
      { Filter := some (fun _ => true), HandshakeTimeout := 0 } (some (Error.other 404))
      { path := "/ws", headers := [] }).2.2.1 (fun _ => true) rfl rfl,
   (New_filter_gate Config.zero "localhost:4222" sampleEnv [] (Ctx.ofHeaders [])
      { Filter := none, HandshakeTimeout := 0 } (some (Error.other 404))
      { path := "/ws", headers := [] }).2.2.2 rfl⟩

/-! ## Accessors -/

/-- The shared body of the four accessors: the stored value when the key is present, else
the first default, else the empty string. -/
theorem commaOk_default (m : GoMap String) (key : String) (defaultValue : List String) :
    (match commaOk m key with
      | (v, ok) =>
        if !ok && decide (defaultValue.length > 0) then defaultValue.headD "" else v) =
    match m.get key with
    | some v => v
    | none => defaultValue.head?.getD "" := by
  unfold commaOk
  cases m.get key with
  | some v => simp
  | none =>
    cases defaultValue with
    | nil => simp
    | cons d ds => simp

/-! ### C9 -/

/-- C9: each of `Params`, `Query`, `Cookies` and `Headers` returns the value stored under
the key when the key is in its map, whatever defaults are supplied and also when the
stored value is the empty string; when the key is not in the map it returns the first
default supplied, and the empty string when none is supplied. -/
theorem Conn_accessors (conn : Conn) (key : String) (defaultValue : List String) :
    ((∀ v, conn.params.get key = some v → conn.Params key defaultValue = v) ∧
      (conn.params.get key = none →
        conn.Params key defaultValue = defaultValue.head?.getD "")) ∧
    ((∀ v, conn.queries.get key = some v → conn.Query key defaultValue = v) ∧
      (conn.queries.get key = none →
        conn.Query key defaultValue = defaultValue.head?.getD "")) ∧
    ((∀ v, conn.cookies.get key = some v → conn.Cookies key defaultValue = v) ∧
      (conn.cookies.get key = none →
        conn.Cookies key defaultValue = defaultValue.head?.getD "")) ∧
    ((∀ v, conn.headers.get key = some v → conn.Headers key defaultValue = v) ∧
      (conn.headers.get key = none →
        conn.Headers key defaultValue = defaultValue.head?.getD "")) := by
  refine ⟨⟨?_, ?_⟩, ⟨?_, ?_⟩, ⟨?_, ?_⟩, ⟨?_, ?_⟩⟩
  · intro v h
    exact (commaOk_default conn.params key defaultValue).trans (by rw [h])
  · intro h
    exact (commaOk_default conn.params key defaultValue).trans (by rw [h])
  · intro v h
    exact (commaOk_default conn.queries key defaultValue).trans (by rw [h])
  · intro h
    exact (commaOk_default conn.queries key defaultValue).trans (by rw [h])
  · intro v h
    exact (commaOk_default conn.cookies key defaultValue).trans (by rw [h])
  · intro h
    exact (commaOk_default conn.cookies key defaultValue).trans (by rw [h])
  · intro v h
    exact (commaOk_default conn.headers key defaultValue).trans (by rw [h])
  · intro h
    exact (commaOk_default conn.headers key defaultValue).trans (by rw [h])

/-- Witness of C9: a stored empty string wins over a default, a missing key gives the
first of two defaults, and a missing key without default gives the empty string. -/
theorem Conn_accessors_witness :
    emptyParam.Params "id" ["fallback"] = "" ∧
    emptyParam.Params "name" ["first", "second"] = "first" ∧
    emptyParam.Query "q" [] = "" ∧
    usedConn.Cookies "session" ["fallback"] = "abc" ∧
    usedConn.Headers "Host" ["fallback"] = "fallback" :=
  ⟨(Conn_accessors emptyParam "id" ["fallback"]).1.1 "" (by decide),
   (Conn_accessors emptyParam "name" ["first", "second"]).1.2 (by decide),
   (Conn_accessors emptyParam "q" []).2.1.2 (by decide),
   (Conn_accessors usedConn "session" ["fallback"]).2.2.1.1 "abc" (by decide),
   (Conn_accessors usedConn "Host" ["fallback"]).2.2.2.2 (by decide)⟩

/-! ## The bridge -/

/-- With the backend closed the loop runs as long as it is given fuel. -/
theorem writeLoop_backendClosed (fuel n : Nat) :
    writeLoop backendClosed fuel n = (LoopResult.running, eofRounds n fuel) := by
  induction fuel generalizing n with
  | zero => rfl
  | succ fuel ih =>
    unfold writeLoop
    simp only [backendClosed, eofRounds]
    have := ih (n + 1)
    simp only [backendClosed] at this
    rw [this]

/-- However a copy ends (EOF, failed read or failed write), the loop goes on to request
the writer of the next iteration. -/
theorem writeLoop_requests_writer_after_copy (env : WriterEnv) (fuel n : Nat) (e : CopyEnd)
    (hw : env.NextWriter n = none) (hc : env.Copy n = some e) :
    (writeLoop env (fuel + 2) n).2.take 3 =
      [BridgeEvent.nextWriter n, BridgeEvent.copyEnd n e, BridgeEvent.nextWriter (n + 1)] := by
  unfold writeLoop
  simp only [hw, hc]
  unfold writeLoop
  cases env.NextWriter (n + 1) with
  | some err => rfl
  | none =>
    cases env.Copy (n + 1) with
    | none => rfl
    | some e2 => rfl

/-- The loop returns only the error of a failed request for a writer. -/
theorem writeLoop_returned (env : WriterEnv) (fuel n : Nat) (err : Error)
    (h : (writeLoop env fuel n).1 = LoopResult.returned err) :
    ∃ k, n ≤ k ∧ env.NextWriter k = some err := by
  induction fuel generalizing n with
  | zero => simp [writeLoop] at h
  | succ fuel ih =>
    unfold writeLoop at h
    cases hw : env.NextWriter n with
    | some err2 =>
      simp only [hw, LoopResult.returned.injEq] at h
      exact ⟨n, le_refl n, by rw [hw, h]⟩
    | none =>
      cases hc : env.Copy n with
      | none => simp [hw, hc] at h
      | some e =>
        simp only [hw, hc] at h
        obtain ⟨k, hk, hk2⟩ := ih (n + 1) h
        exact ⟨k, by omega, hk2⟩

/-! ### C10 -/

/-- C10 fails on the code. With the backend closed, so that every copy ends at once with
EOF, and a framed connection that keeps giving writers, the loop of `writeMessages` has not
returned after any number of iterations: after the copy of iteration 0 ended with EOF it
requested the writer of iteration 1, and so on, one writer per iteration. -/
theorem writeMessages_backendClosed_keeps_running (fuel : Nat) :
    (writeMessages backendClosed fuel).1 = LoopResult.running ∧
    (writeMessages backendClosed fuel).2 = eofRounds 0 fuel ∧
    (writeMessages backendClosed (fuel + 2)).2.take 3 =
      [BridgeEvent.nextWriter 0, BridgeEvent.copyEnd 0 CopyEnd.eof, BridgeEvent.nextWriter 1] := by
  unfold writeMessages
  rw [writeLoop_backendClosed, writeLoop_backendClosed]
  exact ⟨rfl, rfl, rfl⟩

/-! ## Panics of the handler -/

/-- An assignment into a map that exists succeeds and gives a map that exists. -/
theorem GoMap_set_of_ne_none {V : Type} (m : GoMap V) (key : String) (v : V) (h : m ≠ none) :
    ∃ m2 : GoMap V, GoMap.set m key v = some m2 ∧ m2 ≠ none := by
  cases m with
  | none => exact absurd rfl h
  | some es => exact ⟨_, rfl, by simp⟩

/-- A copy loop succeeds and keeps the maps in existence when each assignment does. -/
theorem foldlM_mapsMade {β : Type} (f : Conn → β → Option Conn)
    (hf : ∀ conn b, conn.mapsMade → ∃ conn2, f conn b = some conn2 ∧ conn2.mapsMade)
    (l : List β) (conn : Conn) (h : conn.mapsMade) :
    ∃ conn2, l.foldlM f conn = some conn2 ∧ conn2.mapsMade := by
  induction l generalizing conn with
  | nil => exact ⟨conn, rfl, h⟩
  | cons b rest ih =>
    obtain ⟨c1, h1, h2⟩ := hf conn b h
    obtain ⟨c2, h3, h4⟩ := ih c1 h2
    refine ⟨c2, ?_, h4⟩
    rw [List.foldlM_cons, h1]
    exact h3

/-- The assignment `conn.locals[key] = value` on a context whose maps exist. -/
theorem Conn.setLocal_mapsMade (conn : V3.Conn) (key : String) (value : Any)
    (h : conn.mapsMade) : ∃ conn2, conn.setLocal key value = some conn2 ∧ conn2.mapsMade := by
  obtain ⟨h1, h2, h3, h4, h5⟩ := h
  obtain ⟨m, hm, hne⟩ := GoMap_set_of_ne_none conn.locals key value h1
  exact ⟨{ conn with locals := m }, by simp only [Conn.setLocal, hm, Option.map_some'], hne, h2, h3, h4, h5⟩

/-- The assignment `conn.params[key] = value` on a context whose maps exist. -/
theorem Conn.setParam_mapsMade (conn : V3.Conn) (key value : String)
    (h : conn.mapsMade) : ∃ conn2, conn.setParam key value = some conn2 ∧ conn2.mapsMade := by
  obtain ⟨h1, h2, h3, h4, h5⟩ := h
  obtain ⟨m, hm, hne⟩ := GoMap_set_of_ne_none conn.params key value h2
  exact ⟨{ conn with params := m }, by simp only [Conn.setParam, hm, Option.map_some'], h1, hne, h3, h4, h5⟩

/-- The assignment `conn.queries[key] = value` on a context whose maps exist. -/
theorem Conn.setQuery_mapsMade (conn : V3.Conn) (key value : String)
    (h : conn.mapsMade) : ∃ conn2, conn.setQuery key value = some conn2 ∧ conn2.mapsMade := by
  obtain ⟨h1, h2, h3, h4, h5⟩ := h
  obtain ⟨m, hm, hne⟩ := GoMap_set_of_ne_none conn.queries key value h3
  exact ⟨{ conn with queries := m }, by simp only [Conn.setQuery, hm, Option.map_some'], h1, h2, hne, h4, h5⟩

/-- The assignment `conn.cookies[key] = value` on a context whose maps exist. -/
theorem Conn.setCookie_mapsMade (conn : V3.Conn) (key value : String)
    (h : conn.mapsMade) : ∃ conn2, conn.setCookie key value = some conn2 ∧ conn2.mapsMade := by
  obtain ⟨h1, h2, h3, h4, h5⟩ := h
  obtain ⟨m, hm, hne⟩ := GoMap_set_of_ne_none conn.cookies key value h4
  exact ⟨{ conn with cookies := m }, by simp only [Conn.setCookie, hm, Option.map_some'], h1, h2, h3, hne, h5⟩

/-- The assignment `conn.headers[key] = value` on a context whose maps exist. -/
theorem Conn.setHeader_mapsMade (conn : V3.Conn) (key value : String)
    (h : conn.mapsMade) : ∃ conn2, conn.setHeader key value = some conn2 ∧ conn2.mapsMade := by
  obtain ⟨h1, h2, h3, h4, h5⟩ := h
  obtain ⟨m, hm, hne⟩ := GoMap_set_of_ne_none conn.headers key value h5
  exact ⟨{ conn with headers := m }, by simp only [Conn.setHeader, hm, Option.map_some'], h1, h2, h3, h4, hne⟩

/-- The five copy loops succeed on a context whose maps exist. -/
theorem populate_of_mapsMade (conn : Conn) (c : Ctx) (h : conn.mapsMade) :
    ∃ conn2, populate conn c = some conn2 := by
  obtain ⟨c1, e1, m1⟩ := foldlM_mapsMade (fun conn kv => conn.setLocal kv.1 kv.2)
    (fun conn kv hm => Conn.setLocal_mapsMade conn kv.1 kv.2 hm) c.userValues conn h
  obtain ⟨c2, e2, m2⟩ := foldlM_mapsMade
    (fun conn p => conn.setParam (CopyString p) (CopyString (c.Params p)))
    (fun conn p hm => Conn.setParam_mapsMade conn _ _ hm) c.routeParams c1 m1
  obtain ⟨c3, e3, m3⟩ := foldlM_mapsMade (fun conn kv => conn.setQuery kv.1 kv.2)
    (fun conn kv hm => Conn.setQuery_mapsMade conn kv.1 kv.2 hm) c.queryArgs c2 m2
  obtain ⟨c4, e4, m4⟩ := foldlM_mapsMade (fun conn kv => conn.setCookie kv.1 kv.2)
    (fun conn kv hm => Conn.setCookie_mapsMade conn kv.1 kv.2 hm) c.cookies c3 m3
  obtain ⟨c5, e5, _⟩ := foldlM_mapsMade (fun conn kv => conn.setHeader kv.1 kv.2)
    (fun conn kv hm => Conn.setHeader_mapsMade conn kv.1 kv.2 hm) c.headers c4 m4
  refine ⟨c5, ?_⟩
  unfold populate
  simp only [e1, e2, e3, e4, e5, Option.bind_eq_bind, Option.some_bind]

/-- A context with five empty maps has its maps in existence. -/
theorem Conn.mapsMade_of_mapsEmpty (conn : V3.Conn) (h : conn.mapsEmpty) : conn.mapsMade := by
  obtain ⟨h1, h2, h3, h4, h5⟩ := h
  refine ⟨?_, ?_, ?_, ?_, ?_⟩ <;> simp [h1, h2, h3, h4, h5]

/-- The handler panics neither in its copy loops nor in the origin check. -/
theorem New_outcome_ne_panicked (config : Config) (addr : String) (env : Env) (pool : Pool)
    (c : Ctx) : (New config addr env pool c).outcome ≠ Outcome.panicked := by
  obtain ⟨o, os, ho⟩ := configDefault_Origins_cons config
  obtain ⟨b, hb⟩ : ∃ b, CheckOrigin (configDefault [config]) (c.Locals "websocket" Any.conn) =
      some b := ⟨_, CheckOrigin_cons _ _ o os ho⟩
  have hacq := acquireConn_some pool env.pick
  unfold New
  dsimp only
  rcases hacqE : acquireConn pool env.pick with ⟨r, rest⟩
  rw [hacqE] at hacq
  cases r with
  | none => split_ifs <;> simp
  | some conn =>
    obtain ⟨conn2, hp⟩ := populate_of_mapsMade conn (c.Locals "websocket" Any.conn)
      (Conn.mapsMade_of_mapsEmpty conn (hacq conn rfl).1)
    simp only [hp, hb]
    cases b <;> split_ifs <;> simp

/-- Without the resolution the index would be out of range: on the zero configuration,
whose origin list is nil, the origin check panics. -/
theorem CheckOrigin_zero_config_panics :
    CheckOrigin Config.zero (Ctx.ofHeaders [("Origin", "https://a.test")]) = none := by
  decide

/-! ### C11 -/

/-- C11: for every configuration passed to `New`, also one whose origin list is nil or
empty, and every request, the origin list that the `CheckOrigin` closure captures has at
least one entry, so `cfg.Origins[0]` is in bounds and the origin check returns a verdict
instead of an index panic; and no run of the handler built by `New` ends in a panic. -/
theorem CheckOrigin_index_in_bounds (config : Config) (addr : String) (env : Env)
    (pool : Pool) (c fctx : Ctx) :
    0 < sliceLen (configDefault [config]).Origins ∧
    (∃ first, sliceIndex (configDefault [config]).Origins 0 = some first) ∧
    (∃ verdict, CheckOrigin (configDefault [config]) fctx = some verdict) ∧
    (New config addr env pool c).outcome ≠ Outcome.panicked := by
  obtain ⟨o, os, ho⟩ := configDefault_Origins_cons config
  refine ⟨?_, ⟨o, ?_⟩, ⟨_, CheckOrigin_cons _ fctx o os ho⟩, ?_⟩
  · exact Nat.pos_of_ne_zero (configDefault_Origins_len config)
  · simp [ho, sliceIndex, sliceElems]
  · exact New_outcome_ne_panicked config addr env pool c

end V3

end Relay
